import Mathlib

/-!
Shallow embedding of `src/server.js`, a WebSocket multiplayer
position-broadcast server, together with proofs about its behaviour.

Modelling conventions:

* The JS numbers involved (coordinates, world constants) are always exact
  small integers in this program, so coordinates are embedded as `Int`.
* The player id string `player-${n}` is determined by the numeric counter
  value `n` (`nextPlayerId`), so ids are carried as the `Nat` counter value;
  the derived display name keeps the formatted text (`"Player " ++ toString n`).
* The registry `players` (a JS object keyed by id) is an association list
  with JS object semantics: assignment overwrites the binding for an existing
  key, `delete` removes it, lookup of an absent key yields `none`.
* A WebSocket connection is a pair of its attached id (`ws.id`) and its
  `readyState === OPEN` flag; `wss.clients` is the list of connections in
  insertion order.
* Randomness (`getRandomColor`) enters the model as an input parameter of
  the connect handler.
* Each event handler returns the updated server state together with the
  list of messages written (`client.send(...)`), in order.  The message
  listener can also terminate with an uncaught JavaScript exception, which
  is modelled with `Except`.
-/

/-- Size of the main game square (server.js line 4). -/
def WORLD_SIZE : Int := 500

/-- Size of each player square (server.js line 5). -/
def PLAYER_SIZE : Int := 20

/-- Pixels a player moves per key press (server.js line 6). -/
def MOVEMENT_SPEED : Int := 5

/-- Player record stored in the `players` registry (server.js lines 38-44).
The id field carries the numeric counter value behind `player-${n}`. -/
structure Player where
  x : Int
  y : Int
  color : String
  name : String
  id : Nat
deriving DecidableEq, Repr

/-- A WebSocket connection: the player id attached to it (`ws.id`,
server.js line 46) and whether `readyState === WebSocket.OPEN`. -/
structure Conn where
  id : Nat
  isOpen : Bool
deriving DecidableEq, Repr

/-- Registry as association list, mirroring the JS object `players`. -/
abbrev Registry := List (Nat × Player)

/-- Lookup `players[k]`: `none` models JS `undefined` for an absent key. -/
def getEntry : Registry → Nat → Option Player
  | [], _ => none
  | (k', v') :: rest, k => if k' = k then some v' else getEntry rest k

/-- Assignment `players[k] = v`: overwrite the binding if the key is
present, otherwise append it. -/
def setEntry : Registry → Nat → Player → Registry
  | [], k, v => [(k, v)]
  | (k', v') :: rest, k, v =>
      if k' = k then (k, v) :: rest else (k', v') :: setEntry rest k v

/-- Deletion `delete players[k]`: remove the binding for `k` (a no-op when
the key is absent). -/
def delEntry : Registry → Nat → Registry
  | [], _ => []
  | (k', v') :: rest, k =>
      if k' = k then delEntry rest k else (k', v') :: delEntry rest k

/-- Server-to-client message payloads (the JSON envelopes the server
serializes in `server.js`). -/
inductive ServerMsg where
  | init (playerId : Nat) (playerState : Player) (worldSize playerSize : Int)
  | currentPlayers (players : Registry)
  | playerJoined (player : Player)
  | playerMoved (playerId : Nat) (x y : Int)
  | chat (sender : String) (message : String)
  | playerLeft (playerId : Nat)
deriving DecidableEq, Repr

/-- One `client.send(JSON.stringify(msg))` call: the id of the target
connection and the payload written to it. -/
structure Send where
  target : Nat
  msg : ServerMsg
deriving DecidableEq, Repr

/-- A successfully parsed inbound payload (`parsedMessage`): its `type`
discriminator and the fields the handler reads; `none` models an absent
(`undefined`) field. -/
structure ParsedMessage where
  type : String
  direction : Option String
  message : Option String
deriving DecidableEq, Repr

/-- Uncaught JavaScript exception escaping the message listener. -/
inductive JsError where
  | referenceError (name : String)
deriving DecidableEq, Repr

/-- Whole server state: the `players` registry, the id counter
`nextPlayerId`, and `wss.clients` in insertion order. -/
structure ServerState where
  players : Registry
  nextPlayerId : Nat
  clients : List Conn
deriving DecidableEq, Repr

/-- State at process start: empty registry, counter at 1, no connections
(server.js lines 15-16). -/
def initialState : ServerState :=
  { players := [], nextPlayerId := 1, clients := [] }

/-- Initial x coordinate `(WORLD_SIZE / 2) - (PLAYER_SIZE / 2)`
(server.js line 35). -/
def initialX : Int := WORLD_SIZE / 2 - PLAYER_SIZE / 2

/-- Initial y coordinate, the same expression (server.js line 36). -/
def initialY : Int := WORLD_SIZE / 2 - PLAYER_SIZE / 2

/-- The player record built on connect (server.js lines 30-44): centered
position, the supplied random color, name `Player ${n}` derived from the
id, and the id itself. -/
def newPlayer (pid : Nat) (color : String) : Player :=
  { x := initialX
  , y := initialY
  , color := color
  , name := "Player " ++ toString pid
  , id := pid }

/-- Connection handler (server.js lines 28-73).  Allocates the next id,
inserts the centered player into the registry, registers the connection
(the ws library has added `ws` to `wss.clients`, open), then sends: the
`init` message to the new connection, the `currentPlayers` snapshot to the
new connection, and `playerJoined` to every other open connection
(`client !== ws && client.readyState === OPEN`); since `ws` is the one
connection just appended, the others are exactly the pre-existing
clients. -/
def handleConnection (st : ServerState) (color : String) :
    ServerState × List Send :=
  let pid := st.nextPlayerId
  let p := newPlayer pid color
  let players' := setEntry st.players pid p
  let st' : ServerState :=
    { players := players'
    , nextPlayerId := pid + 1
    , clients := st.clients ++ [{ id := pid, isOpen := true }] }
  let sends :=
    { target := pid, msg := .init pid p WORLD_SIZE PLAYER_SIZE } ::
    { target := pid, msg := .currentPlayers players' } ::
    (st.clients.filter Conn.isOpen).map
      (fun c => { target := c.id, msg := .playerJoined p })
  (st', sends)

/-- Movement resolution (server.js lines 89-105): start from the current
coordinates (`let newX = player.x; let newY = player.y`) and update one
axis according to the inner `switch (parsedMessage.direction)`; any other
direction value (including an absent field) falls through and leaves both
coordinates unchanged. -/
def resolveMovement (x y : Int) (direction : Option String) : Int × Int :=
  match direction with
  | some "w" => (x, max 0 (y - MOVEMENT_SPEED))
  | some "a" => (max 0 (x - MOVEMENT_SPEED), y)
  | some "s" => (x, min (WORLD_SIZE - PLAYER_SIZE) (y + MOVEMENT_SPEED))
  | some "d" => (min (WORLD_SIZE - PLAYER_SIZE) (x + MOVEMENT_SPEED), y)
  | _ => (x, y)

/-- Dispatch on a successfully parsed message (the outer
`switch (parsedMessage.type)`, server.js lines 84-143).

The `movement` case (lines 85-124) looks up `players[ws.id]`, returns
silently when absent, resolves the new position, and only when it differs
from the old one on some axis updates the registry entry in place and
broadcasts `playerMoved` to every open connection (sender included).

The `chat` case (lines 126-138) reads `player.name`, but `player` is the
`const` declared inside the `movement` case of the same switch block: on a
chat message that declaration is never executed, so the access happens in
the temporal dead zone and throws
`ReferenceError: Cannot access 'player' before initialization` before
anything is logged or sent.

Any other type (lines 141-142) is logged and dropped. -/
def handleParsed (st : ServerState) (senderId : Nat) (pm : ParsedMessage) :
    Except JsError (ServerState × List Send) :=
  if pm.type = "movement" then
    match getEntry st.players senderId with
    | none => .ok (st, [])
    | some player =>
      let r := resolveMovement player.x player.y pm.direction
      if r.1 ≠ player.x ∨ r.2 ≠ player.y then
        let p' : Player := { player with x := r.1, y := r.2 }
        .ok
          ( { st with players := setEntry st.players senderId p' }
          , (st.clients.filter Conn.isOpen).map
              (fun c => { target := c.id, msg := .playerMoved senderId r.1 r.2 }) )
      else
        .ok (st, [])
  else if pm.type = "chat" then
    .error (.referenceError "player")
  else
    .ok (st, [])

/-- Message listener (server.js lines 75-144): a payload that fails
`JSON.parse` (modelled by `none`) is caught, logged and dropped; a parsed
payload goes to the `type` dispatch. -/
def handleMessage (st : ServerState) (senderId : Nat)
    (raw : Option ParsedMessage) : Except JsError (ServerState × List Send) :=
  match raw with
  | none => .ok (st, [])
  | some pm => handleParsed st senderId pm

/-- Close handler (server.js lines 146-159).  When `close` fires the ws
library has already removed the socket from `wss.clients` and its
`readyState` is no longer `OPEN`; the handler then deletes
`players[ws.id]` and broadcasts `playerLeft` with the departed id to every
remaining open connection. -/
def handleClose (st : ServerState) (closingId : Nat) :
    ServerState × List Send :=
  let clients' := st.clients.filter (fun c => c.id ≠ closingId)
  let st' : ServerState :=
    { players := delEntry st.players closingId
    , nextPlayerId := st.nextPlayerId
    , clients := clients' }
  let sends :=
    (clients'.filter Conn.isOpen).map
      (fun c => { target := c.id, msg := .playerLeft closingId })
  (st', sends)

/-- One transport event delivered to the server. -/
inductive Event where
  | connect (color : String)
  | message (senderId : Nat) (raw : Option ParsedMessage)
  | close (id : Nat)
deriving DecidableEq, Repr

/-- One event step carrying the accumulated outbound trace.  A message on
which the listener throws leaves the state unchanged (the exception is
raised before any mutation or send). -/
def stepTrace (acc : ServerState × List Send) (e : Event) :
    ServerState × List Send :=
  match e with
  | .connect color =>
      let r := handleConnection acc.1 color
      (r.1, acc.2 ++ r.2)
  | .message sid raw =>
      match handleMessage acc.1 sid raw with
      | .ok r => (r.1, acc.2 ++ r.2)
      | .error _ => acc
  | .close cid =>
      let r := handleClose acc.1 cid
      (r.1, acc.2 ++ r.2)

/-- Run a sequence of events from process start, collecting every message
the server wrote. -/
def runTrace (es : List Event) : ServerState × List Send :=
  es.foldl stepTrace (initialState, [])

/-- Server state reached after a sequence of events. -/
def run (es : List Event) : ServerState := (runTrace es).1

instance {ε α : Type} [DecidableEq ε] [DecidableEq α] :
    DecidableEq (Except ε α) := fun a b =>
  match a, b with
  | .ok x, .ok y =>
      if h : x = y then isTrue (congrArg Except.ok h)
      else isFalse (fun hh => h (Except.ok.inj hh))
  | .error x, .error y =>
      if h : x = y then isTrue (congrArg Except.error h)
      else isFalse (fun hh => h (Except.error.inj hh))
  | .ok _, .error _ => isFalse (fun hh => Except.noConfusion hh)
  | .error _, .ok _ => isFalse (fun hh => Except.noConfusion hh)

/-- Parameterized per-coordinate invariant over the registry. -/
def coordInv (P : Int → Prop) (st : ServerState) : Prop :=
  ∀ k p, (k, p) ∈ st.players → P p.x ∧ P p.y

/-- Concrete state used in several closed statements: one player, id 1,
centered at (240, 240), with one open connection, as produced by a single
connect. -/
def stOne : ServerState := run [Event.connect "#AABBCC"]

/-- The registered player of `stOne`. -/
def pOne : Player := newPlayer 1 "#AABBCC"

/-- Two-player state reached by two connects. -/
def stTwo : ServerState := run [Event.connect "#AABBCC", Event.connect "#DDEEFF"]

/-- Id carried by a trace entry when it is an `init` message (the moment a
fresh id is assigned); `none` for every other message. -/
def initAssignedId (s : Send) : Option Nat :=
  match s.msg with
  | .init pid _ _ _ => some pid
  | _ => none

/-- The player ids assigned over a run, in the order they were assigned:
the ids carried by the `init` messages of the outbound trace. -/
def assignedIds (es : List Event) : List Nat :=
  (runTrace es).2.filterMap initAssignedId

/-- Number of connect events in a sequence. -/
def countConnects : List Event → Nat
  | [] => 0
  | Event.connect _ :: es => countConnects es + 1
  | _ :: es => countConnects es

/-- The k consecutive naturals starting at n. -/
def idsFrom : Nat → Nat → List Nat
  | _, 0 => []
  | n, k + 1 => n :: idsFrom (n + 1) k

/-! Registry lemmas: how `getEntry`, `setEntry` and `delEntry` interact
with membership and with each other. -/

lemma getEntry_eq_some_mem :
    ∀ {m : Registry} {k : Nat} {p : Player},
      getEntry m k = some p → (k, p) ∈ m := by
  intro m
  induction m with
  | nil => intro k p h; simp [getEntry] at h
  | cons hd tl ih =>
      intro k p h
      obtain ⟨k', v'⟩ := hd
      by_cases hk : k' = k
      · subst hk
        simp [getEntry] at h
        subst h
        exact List.mem_cons_self _ _
      · simp [getEntry, hk] at h
        exact List.mem_cons_of_mem _ (ih h)

lemma mem_setEntry :
    ∀ {m : Registry} {k a : Nat} {v b : Player},
      (a, b) ∈ setEntry m k v → (a = k ∧ b = v) ∨ (a, b) ∈ m := by
  intro m
  induction m with
  | nil => intro k a v b h; simp [setEntry] at h; exact Or.inl h
  | cons hd tl ih =>
      intro k a v b h
      obtain ⟨k', v'⟩ := hd
      by_cases hk : k' = k
      · subst hk
        simp [setEntry] at h
        rcases h with h | h
        · exact Or.inl h
        · exact Or.inr (List.mem_cons_of_mem _ h)
      · simp [setEntry, hk] at h
        rcases h with h | h
        · exact Or.inr (by simp [h])
        · rcases ih h with h' | h'
          · exact Or.inl h'
          · exact Or.inr (List.mem_cons_of_mem _ h')

lemma mem_delEntry :
    ∀ {m : Registry} {k a : Nat} {b : Player},
      (a, b) ∈ delEntry m k → (a, b) ∈ m := by
  intro m
  induction m with
  | nil => intro k a b h; simp [delEntry] at h
  | cons hd tl ih =>
      intro k a b h
      obtain ⟨k', v'⟩ := hd
      by_cases hk : k' = k
      · simp [delEntry, hk] at h
        exact List.mem_cons_of_mem _ (ih h)
      · simp [delEntry, hk] at h
        rcases h with h | h
        · simp [h]
        · exact List.mem_cons_of_mem _ (ih h)

lemma getEntry_delEntry_self :
    ∀ (m : Registry) (k : Nat), getEntry (delEntry m k) k = none := by
  intro m
  induction m with
  | nil => intro k; simp [delEntry, getEntry]
  | cons hd tl ih =>
      intro k
      obtain ⟨k', v'⟩ := hd
      by_cases hk : k' = k
      · simp [delEntry, hk, ih]
      · simp [delEntry, getEntry, hk, ih]

lemma getEntry_setEntry_self :
    ∀ (m : Registry) (k : Nat) (v : Player),
      getEntry (setEntry m k v) k = some v := by
  intro m
  induction m with
  | nil => intro k v; simp [setEntry, getEntry]
  | cons hd tl ih =>
      intro k v
      obtain ⟨k', v'⟩ := hd
      by_cases hk : k' = k
      · simp [setEntry, hk, getEntry]
      · simp [setEntry, getEntry, hk, ih]

lemma getEntry_setEntry_ne :
    ∀ (m : Registry) {k k' : Nat} (v : Player), k' ≠ k →
      getEntry (setEntry m k v) k' = getEntry m k' := by
  intro m
  induction m with
  | nil => intro k k' v h; simp [setEntry, getEntry, Ne.symm h]
  | cons hd tl ih =>
      intro k k' v h
      obtain ⟨k'', v''⟩ := hd
      by_cases hk : k'' = k
      · subst hk
        simp [setEntry, getEntry, h, Ne.symm h]
      · simp [setEntry, getEntry, hk, ih _ h]

lemma handleParsed_coordInv (P : Int → Prop)
    (hres : ∀ x y d, P x → P y →
      P (resolveMovement x y d).1 ∧ P (resolveMovement x y d).2)
    {st : ServerState} {sid : Nat} {pm : ParsedMessage}
    {st' : ServerState} {sends : List Send}
    (h : handleParsed st sid pm = .ok (st', sends))
    (hst : coordInv P st) : coordInv P st' := by
  unfold handleParsed at h
  by_cases ht : pm.type = "movement"
  · rw [if_pos ht] at h
    cases hget : getEntry st.players sid with
    | none =>
        rw [hget] at h
        cases h
        exact hst
    | some player =>
        rw [hget] at h
        simp only at h
        by_cases hch : (resolveMovement player.x player.y pm.direction).1 ≠ player.x ∨
            (resolveMovement player.x player.y pm.direction).2 ≠ player.y
        · rw [if_pos hch] at h
          cases h
          intro k p hmem
          rcases mem_setEntry hmem with ⟨hk, hp⟩ | hmem'
          · subst hp
            have hold := hst sid player (getEntry_eq_some_mem hget)
            have := hres player.x player.y pm.direction hold.1 hold.2
            simpa using this
          · exact hst _ _ hmem'
        · rw [if_neg hch] at h
          cases h
          exact hst
  · rw [if_neg ht] at h
    by_cases hc : pm.type = "chat"
    · rw [if_pos hc] at h
      cases h
    · rw [if_neg hc] at h
      cases h
      exact hst

lemma handleConnection_coordInv (P : Int → Prop)
    (hinit : P initialX ∧ P initialY)
    {st : ServerState} (color : String)
    (hst : coordInv P st) : coordInv P (handleConnection st color).1 := by
  intro k p hmem
  unfold handleConnection at hmem
  simp only at hmem
  rcases mem_setEntry hmem with ⟨hk, hp⟩ | hmem'
  · subst hp
    exact hinit
  · exact hst _ _ hmem'

lemma handleClose_coordInv (P : Int → Prop)
    {st : ServerState} (cid : Nat)
    (hst : coordInv P st) : coordInv P (handleClose st cid).1 := by
  intro k p hmem
  unfold handleClose at hmem
  simp only at hmem
  exact hst _ _ (mem_delEntry hmem)

lemma stepTrace_coordInv (P : Int → Prop)
    (hinit : P initialX ∧ P initialY)
    (hres : ∀ x y d, P x → P y →
      P (resolveMovement x y d).1 ∧ P (resolveMovement x y d).2)
    (acc : ServerState × List Send) (e : Event)
    (hst : coordInv P acc.1) : coordInv P (stepTrace acc e).1 := by
  cases e with
  | connect color => exact handleConnection_coordInv P hinit color hst
  | message sid raw =>
      cases raw with
      | none => exact hst
      | some pm =>
          cases h : handleParsed acc.1 sid pm with
          | ok r =>
              obtain ⟨st2, sends2⟩ := r
              have hs : (stepTrace acc (Event.message sid (some pm))).1 = st2 := by
                simp [stepTrace, handleMessage, h]
              rw [hs]
              exact handleParsed_coordInv P hres h hst
          | error err =>
              have hs : (stepTrace acc (Event.message sid (some pm))).1 = acc.1 := by
                simp [stepTrace, handleMessage, h]
              rw [hs]
              exact hst
  | close cid => exact handleClose_coordInv P cid hst

lemma run_coordInv (P : Int → Prop)
    (hinit : P initialX ∧ P initialY)
    (hres : ∀ x y d, P x → P y →
      P (resolveMovement x y d).1 ∧ P (resolveMovement x y d).2)
    (es : List Event) : coordInv P (run es) := by
  have key : ∀ (l : List Event) (acc : ServerState × List Send),
      coordInv P acc.1 → coordInv P (l.foldl stepTrace acc).1 := by
    intro l
    induction l with
    | nil => intro acc h; exact h
    | cons e t ih =>
        intro acc h
        exact ih _ (stepTrace_coordInv P hinit hres acc e h)
  refine key es (initialState, []) ?_
  intro k p hmem
  simp [initialState] at hmem

lemma resolveMovement_coordOk (x y : Int) (d : Option String)
    (hx : 0 ≤ x ∧ x ≤ WORLD_SIZE - PLAYER_SIZE)
    (hy : 0 ≤ y ∧ y ≤ WORLD_SIZE - PLAYER_SIZE) :
    (0 ≤ (resolveMovement x y d).1 ∧
      (resolveMovement x y d).1 ≤ WORLD_SIZE - PLAYER_SIZE) ∧
    (0 ≤ (resolveMovement x y d).2 ∧
      (resolveMovement x y d).2 ≤ WORLD_SIZE - PLAYER_SIZE) := by
  simp only [WORLD_SIZE, PLAYER_SIZE] at hx hy
  unfold resolveMovement
  split <;> dsimp only <;>
    simp only [WORLD_SIZE, PLAYER_SIZE, MOVEMENT_SPEED] <;> omega

lemma resolveMovement_dvd (x y : Int) (d : Option String)
    (hx : MOVEMENT_SPEED ∣ x) (hy : MOVEMENT_SPEED ∣ y) :
    MOVEMENT_SPEED ∣ (resolveMovement x y d).1 ∧
    MOVEMENT_SPEED ∣ (resolveMovement x y d).2 := by
  have hmax : ∀ v : Int, MOVEMENT_SPEED ∣ v →
      MOVEMENT_SPEED ∣ max 0 (v - MOVEMENT_SPEED) := by
    intro v hv
    rcases max_cases 0 (v - MOVEMENT_SPEED) with ⟨h1, _⟩ | ⟨h1, _⟩ <;> rw [h1]
    · exact dvd_zero _
    · exact dvd_sub hv dvd_rfl
  have hmin : ∀ v : Int, MOVEMENT_SPEED ∣ v →
      MOVEMENT_SPEED ∣ min (WORLD_SIZE - PLAYER_SIZE) (v + MOVEMENT_SPEED) := by
    intro v hv
    rcases min_cases (WORLD_SIZE - PLAYER_SIZE) (v + MOVEMENT_SPEED) with
      ⟨h1, _⟩ | ⟨h1, _⟩ <;> rw [h1]
    · exact ⟨96, by decide⟩
    · exact dvd_add hv dvd_rfl
  unfold resolveMovement
  split
  · exact ⟨hx, hmax y hy⟩
  · exact ⟨hmax x hx, hy⟩
  · exact ⟨hx, hmin y hy⟩
  · exact ⟨hmin x hx, hy⟩
  · exact ⟨hx, hy⟩

lemma filterMap_const_none {α β : Type} (l : List α) :
    l.filterMap (fun _ => (none : Option β)) = [] := by
  induction l with
  | nil => rfl
  | cons a t ih => simp [List.filterMap_cons, ih]

lemma mem_idsFrom {k n m : Nat} (h : m ∈ idsFrom n k) : n ≤ m := by
  induction k generalizing n with
  | zero => simp [idsFrom] at h
  | succ k ih =>
      simp only [idsFrom, List.mem_cons] at h
      rcases h with h | h
      · omega
      · have := ih h
        omega

lemma idsFrom_pairwise (k : Nat) : ∀ n, List.Pairwise (· < ·) (idsFrom n k) := by
  induction k with
  | zero => intro n; simp [idsFrom]
  | succ k ih =>
      intro n
      rw [show idsFrom n (k + 1) = n :: idsFrom (n + 1) k from rfl]
      refine List.pairwise_cons.2 ⟨?_, ih (n + 1)⟩
      intro m hm
      have := mem_idsFrom hm
      omega

lemma handleParsed_ok_no_id {st : ServerState} {sid : Nat}
    {pm : ParsedMessage} {st' : ServerState} {sends : List Send}
    (h : handleParsed st sid pm = .ok (st', sends)) :
    st'.nextPlayerId = st.nextPlayerId ∧
    sends.filterMap initAssignedId = [] := by
  unfold handleParsed at h
  by_cases ht : pm.type = "movement"
  · rw [if_pos ht] at h
    cases hget : getEntry st.players sid with
    | none =>
        rw [hget] at h
        cases h
        exact ⟨rfl, rfl⟩
    | some player =>
        rw [hget] at h
        simp only at h
        by_cases hch : (resolveMovement player.x player.y pm.direction).1 ≠ player.x ∨
            (resolveMovement player.x player.y pm.direction).2 ≠ player.y
        · rw [if_pos hch] at h
          cases h
          refine ⟨rfl, ?_⟩
          rw [List.filterMap_map]
          exact filterMap_const_none _
        · rw [if_neg hch] at h
          cases h
          exact ⟨rfl, rfl⟩
  · rw [if_neg ht] at h
    by_cases hc : pm.type = "chat"
    · rw [if_pos hc] at h
      cases h
    · rw [if_neg hc] at h
      cases h
      exact ⟨rfl, rfl⟩

lemma foldl_assignedIds (es : List Event) :
    ∀ (st : ServerState) (acc : List Send),
      (es.foldl stepTrace (st, acc)).2.filterMap initAssignedId =
        acc.filterMap initAssignedId ++
          idsFrom st.nextPlayerId (countConnects es) := by
  induction es with
  | nil => intro st acc; simp [countConnects, idsFrom]
  | cons e t ih =>
      intro st acc
      cases e with
      | connect color =>
          rw [List.foldl_cons]
          have hstep : stepTrace (st, acc) (Event.connect color) =
              ((handleConnection st color).1,
                acc ++ (handleConnection st color).2) := rfl
          rw [hstep, ih]
          have hsends : (handleConnection st color).2.filterMap initAssignedId =
              [st.nextPlayerId] := by
            show (({ target := st.nextPlayerId
                   , msg := .init st.nextPlayerId (newPlayer st.nextPlayerId color)
                       WORLD_SIZE PLAYER_SIZE } : Send) ::
                  { target := st.nextPlayerId
                  , msg := .currentPlayers
                      (setEntry st.players st.nextPlayerId
                        (newPlayer st.nextPlayerId color)) } ::
                  (st.clients.filter Conn.isOpen).map
                    (fun c => { target := c.id
                              , msg := .playerJoined (newPlayer st.nextPlayerId color) })).filterMap
                  initAssignedId = [st.nextPlayerId]
            rw [List.filterMap_cons, List.filterMap_cons, List.filterMap_map]
            simp [initAssignedId, filterMap_const_none]
          rw [List.filterMap_append, hsends]
          have hnext : (handleConnection st color).1.nextPlayerId =
              st.nextPlayerId + 1 := rfl
          rw [hnext]
          rw [show countConnects (Event.connect color :: t) = countConnects t + 1 from rfl]
          rw [show idsFrom st.nextPlayerId (countConnects t + 1) =
              st.nextPlayerId :: idsFrom (st.nextPlayerId + 1) (countConnects t) from rfl]
          simp
      | message sid raw =>
          rw [List.foldl_cons]
          cases raw with
          | none =>
              have hstep : stepTrace (st, acc) (Event.message sid none) =
                  (st, acc ++ []) := by
                simp [stepTrace, handleMessage]
              rw [hstep, ih]
              simp [countConnects]
          | some pm =>
              cases h : handleParsed st sid pm with
              | ok r =>
                  obtain ⟨st2, sends2⟩ := r
                  have hstep : stepTrace (st, acc) (Event.message sid (some pm)) =
                      (st2, acc ++ sends2) := by
                    simp [stepTrace, handleMessage, h]
                  rw [hstep, ih]
                  obtain ⟨hn, hs⟩ := handleParsed_ok_no_id h
                  rw [hn, List.filterMap_append, hs,
                    show countConnects (Event.message sid (some pm) :: t) =
                      countConnects t from rfl]
                  simp
              | error err =>
                  have hstep : stepTrace (st, acc) (Event.message sid (some pm)) =
                      (st, acc) := by
                    simp [stepTrace, handleMessage, h]
                  rw [hstep, ih]
                  rfl
      | close cid =>
          rw [List.foldl_cons]
          have hstep : stepTrace (st, acc) (Event.close cid) =
              ((handleClose st cid).1, acc ++ (handleClose st cid).2) := rfl
          rw [hstep, ih]
          have hsends : (handleClose st cid).2.filterMap initAssignedId = [] := by
            show (((st.clients.filter (fun c => decide (c.id ≠ cid))).filter
                Conn.isOpen).map
                (fun c => { target := c.id, msg := .playerLeft cid })).filterMap
                initAssignedId = []
            rw [List.filterMap_map]
            exact filterMap_const_none _
          rw [List.filterMap_append, hsends,
            show (handleClose st cid).1.nextPlayerId = st.nextPlayerId from rfl,
            show countConnects (Event.close cid :: t) = countConnects t from rfl]
          simp

/-- C4: in every reachable state, every player in the registry satisfies
`0 ≤ x ≤ WORLD_SIZE - PLAYER_SIZE` and `0 ≤ y ≤ WORLD_SIZE - PLAYER_SIZE`:
the initial position is within bounds and no sequence of movement messages
ever moves a coordinate outside this range. -/
theorem registry_within_world_bounds (es : List Event) (k : Nat) (p : Player)
    (h : (k, p) ∈ (run es).players) :
    (0 ≤ p.x ∧ p.x ≤ WORLD_SIZE - PLAYER_SIZE) ∧
    (0 ≤ p.y ∧ p.y ≤ WORLD_SIZE - PLAYER_SIZE) := by
  refine run_coordInv (fun v => 0 ≤ v ∧ v ≤ WORLD_SIZE - PLAYER_SIZE)
    ⟨by decide, by decide⟩ (fun x y d hx hy => resolveMovement_coordOk x y d hx hy)
    es k p h

/-- Closed instance of `registry_within_world_bounds` at a concrete run. -/
theorem registry_within_world_bounds_witness :
    (0 ≤ (newPlayer 1 "c").x ∧
      (newPlayer 1 "c").x ≤ WORLD_SIZE - PLAYER_SIZE) ∧
    (0 ≤ (newPlayer 1 "c").y ∧
      (newPlayer 1 "c").y ≤ WORLD_SIZE - PLAYER_SIZE) :=
  registry_within_world_bounds [Event.connect "c"] 1 (newPlayer 1 "c") (by decide)

/-- C10: with the fixed constants, in every reachable state each player's
x and y are integer multiples of MOVEMENT_SPEED. -/
theorem registry_coords_multiples_of_speed (es : List Event) (k : Nat) (p : Player)
    (h : (k, p) ∈ (run es).players) :
    MOVEMENT_SPEED ∣ p.x ∧ MOVEMENT_SPEED ∣ p.y := by
  refine run_coordInv (fun v => MOVEMENT_SPEED ∣ v)
    ⟨⟨48, by decide⟩, ⟨48, by decide⟩⟩ resolveMovement_dvd es k p h

/-- Closed instance of `registry_coords_multiples_of_speed`. -/
theorem registry_coords_multiples_of_speed_witness :
    MOVEMENT_SPEED ∣ (newPlayer 1 "c").x ∧ MOVEMENT_SPEED ∣ (newPlayer 1 "c").y :=
  registry_coords_multiples_of_speed [Event.connect "c"] 1 (newPlayer 1 "c") (by decide)

/-- C7: a payload that fails to parse, and a parsed payload whose type is
neither movement nor chat, are both dropped: no broadcast, registry
unchanged, no error, the listener returns normally. -/
theorem malformed_and_unknown_type_dropped (st : ServerState) (sid : Nat)
    (pm : ParsedMessage)
    (h1 : pm.type ≠ "movement") (h2 : pm.type ≠ "chat") :
    handleMessage st sid none = .ok (st, []) ∧
    handleMessage st sid (some pm) = .ok (st, []) := by
  constructor
  · rfl
  · simp [handleMessage, handleParsed, h1, h2]

/-- Closed instance of `malformed_and_unknown_type_dropped`. -/
theorem malformed_and_unknown_type_dropped_witness :
    handleMessage stOne 1 none = .ok (stOne, []) ∧
    handleMessage stOne 1
        (some { type := "ping", direction := none, message := none }) =
      .ok (stOne, []) :=
  malformed_and_unknown_type_dropped stOne 1
    { type := "ping", direction := none, message := none }
    (by decide) (by decide)

/-- C8: when the resolved position equals the current one on both axes,
the movement handler leaves the state unchanged and sends nothing. -/
theorem unchanged_position_no_broadcast (st : ServerState) (sid : Nat)
    (pm : ParsedMessage) (p : Player)
    (htype : pm.type = "movement")
    (hget : getEntry st.players sid = some p)
    (hres : resolveMovement p.x p.y pm.direction = (p.x, p.y)) :
    handleMessage st sid (some pm) = .ok (st, []) := by
  simp [handleMessage, handleParsed, htype, hget, hres]

/-- Closed instance of `unchanged_position_no_broadcast`: a player at
`x = 0` sends movement `a` (left) and nothing happens. -/
theorem unchanged_position_no_broadcast_witness :
    handleMessage
        { players := [(1, { pOne with x := 0 })]
        , nextPlayerId := 2
        , clients := [{ id := 1, isOpen := true }] } 1
        (some { type := "movement", direction := some "a", message := none }) =
      .ok
        ( { players := [(1, { pOne with x := 0 })]
          , nextPlayerId := 2
          , clients := [{ id := 1, isOpen := true }] }
        , [] ) :=
  unchanged_position_no_broadcast _ 1 _ { pOne with x := 0 }
    rfl (by decide) (by decide)

/-- C1 counterexample: with player 1 registered at the center and an open
connection present, a movement message carrying the spec's direction token
`right` matches no case of the direction switch: the position stays
(240, 240) (it is not increased by MOVEMENT_SPEED) and nothing is sent. -/
theorem movement_right_token_ignored :
    getEntry stOne.players 1 = some pOne ∧
    pOne.x = 240 ∧ pOne.y = 240 ∧
    stOne.clients = [{ id := 1, isOpen := true }] ∧
    pOne.x ≠ pOne.x + MOVEMENT_SPEED ∧
    handleMessage stOne 1
        (some { type := "movement", direction := some "right", message := none }) =
      .ok (stOne, []) := by
  refine ⟨by decide, by decide, by decide, by decide, by decide, rfl⟩

/-- C1 amended: the direction tokens are `w`, `a`, `s`, `d` (labeled up,
left, down, right in the code).  For a registered player at the center,
a movement message with direction `d` (right) sets x to x + MOVEMENT_SPEED
with y unchanged, and a playerMoved message carrying the mover's id and
the new coordinates goes to every open connection, the sender included. -/
theorem movement_d_from_center_moves_right (st : ServerState) (sid : Nat)
    (p : Player)
    (hget : getEntry st.players sid = some p)
    (hx : p.x = initialX) (hy : p.y = initialY) :
    handleMessage st sid
        (some { type := "movement", direction := some "d", message := none }) =
      .ok
        ( { st with
              players :=
                setEntry st.players sid
                  { p with x := p.x + MOVEMENT_SPEED, y := p.y } }
        , (st.clients.filter Conn.isOpen).map
            (fun c => { target := c.id
                      , msg := .playerMoved sid (p.x + MOVEMENT_SPEED) p.y }) ) ∧
    ∀ c ∈ st.clients, c.isOpen = true →
      ({ target := c.id, msg := .playerMoved sid (p.x + MOVEMENT_SPEED) p.y } : Send) ∈
        (st.clients.filter Conn.isOpen).map
          (fun c => { target := c.id
                    , msg := .playerMoved sid (p.x + MOVEMENT_SPEED) p.y }) := by
  have hres : resolveMovement p.x p.y (some "d") = (p.x + MOVEMENT_SPEED, p.y) := by
    rw [hx]
    simp [resolveMovement, WORLD_SIZE, PLAYER_SIZE, MOVEMENT_SPEED, initialX]
  have hcond : p.x + MOVEMENT_SPEED ≠ p.x := by
    simp [MOVEMENT_SPEED]
  constructor
  · simp [handleMessage, handleParsed, hget, hres, hcond]
  · intro c hc hopen
    exact List.mem_map_of_mem _ (List.mem_filter.2 ⟨hc, hopen⟩)

/-- Closed instance of `movement_d_from_center_moves_right` at `stOne`. -/
theorem movement_d_from_center_moves_right_witness :
    handleMessage stOne 1
        (some { type := "movement", direction := some "d", message := none }) =
      .ok
        ( { stOne with
              players :=
                setEntry stOne.players 1
                  { pOne with x := pOne.x + MOVEMENT_SPEED, y := pOne.y } }
        , (stOne.clients.filter Conn.isOpen).map
            (fun c => { target := c.id
                      , msg := .playerMoved 1 (pOne.x + MOVEMENT_SPEED) pOne.y }) ) ∧
    ∀ c ∈ stOne.clients, c.isOpen = true →
      ({ target := c.id, msg := .playerMoved 1 (pOne.x + MOVEMENT_SPEED) pOne.y } : Send) ∈
        (stOne.clients.filter Conn.isOpen).map
          (fun c => { target := c.id
                    , msg := .playerMoved 1 (pOne.x + MOVEMENT_SPEED) pOne.y }) :=
  movement_d_from_center_moves_right stOne 1 pOne (by decide) (by decide) (by decide)

/-- C2 (code defect): even with the sender present in the registry, a chat
message is never broadcast; the listener throws a ReferenceError, because
the `player` binding the chat case reads is the `const` declared in the
movement case of the same switch block, still in its temporal dead zone. -/
theorem chat_with_registered_player_faults :
    getEntry stOne.players 1 = some pOne ∧
    handleMessage stOne 1
        (some { type := "chat", direction := none, message := some "hello" }) =
      .error (.referenceError "player") := by
  refine ⟨by decide, rfl⟩

/-- C3 (code defect): a movement message from a connection with no
registry entry is a silent no-op as claimed, but a chat message from such
a connection throws a ReferenceError instead of being ignored. -/
theorem unregistered_movement_noop_chat_faults :
    getEntry initialState.players 7 = none ∧
    handleMessage initialState 7
        (some { type := "movement", direction := some "d", message := none }) =
      .ok (initialState, []) ∧
    handleMessage initialState 7
        (some { type := "chat", direction := none, message := some "late" }) =
      .error (.referenceError "player") := by
  refine ⟨by decide, rfl, rfl⟩

/-- C5: on connect, the new connection is sent, in order, `init` (own id,
centered player state, world dimensions) then the `currentPlayers`
snapshot as of insertion, which contains the new player; and exactly the
other currently-open connections are sent `playerJoined` with the new
player's state. -/
theorem connect_sends_init_snapshot_joined (st : ServerState) (color : String) :
    ∃ p : Player,
      getEntry (handleConnection st color).1.players st.nextPlayerId = some p ∧
      p.x = WORLD_SIZE / 2 - PLAYER_SIZE / 2 ∧
      p.y = WORLD_SIZE / 2 - PLAYER_SIZE / 2 ∧
      p.id = st.nextPlayerId ∧
      (handleConnection st color).2 =
        { target := st.nextPlayerId
        , msg := .init st.nextPlayerId p WORLD_SIZE PLAYER_SIZE } ::
        { target := st.nextPlayerId
        , msg := .currentPlayers (handleConnection st color).1.players } ::
        (st.clients.filter Conn.isOpen).map
          (fun c => { target := c.id, msg := .playerJoined p }) := by
  exact ⟨newPlayer st.nextPlayerId color,
    getEntry_setEntry_self _ _ _, rfl, rfl, rfl, rfl⟩

/-- C6: on disconnect the departed entry is deleted from the registry, the
remaining open connections (the departed one is no longer among them) each
receive `playerLeft` with the departed id, and the `currentPlayers`
snapshot a later-connecting client receives no longer contains the
departed player. -/
theorem disconnect_deletes_then_broadcasts (st : ServerState) (cid : Nat)
    (color : String) (hfresh : cid ≠ st.nextPlayerId) :
    getEntry (handleClose st cid).1.players cid = none ∧
    (handleClose st cid).2 =
      ((handleClose st cid).1.clients.filter Conn.isOpen).map
        (fun c => { target := c.id, msg := .playerLeft cid }) ∧
    (∀ c ∈ (handleClose st cid).1.clients, c.id ≠ cid) ∧
    getEntry (handleConnection (handleClose st cid).1 color).1.players cid = none := by
  refine ⟨getEntry_delEntry_self _ _, rfl, ?_, ?_⟩
  · intro c hc
    have h := List.of_mem_filter hc
    simpa using h
  · have h1 : (handleConnection (handleClose st cid).1 color).1.players =
        setEntry (delEntry st.players cid) st.nextPlayerId
          (newPlayer st.nextPlayerId color) := rfl
    rw [h1, getEntry_setEntry_ne _ _ hfresh]
    exact getEntry_delEntry_self _ _

/-- Closed instance of `disconnect_deletes_then_broadcasts` at `stTwo`. -/
theorem disconnect_deletes_then_broadcasts_witness :
    getEntry (handleClose stTwo 1).1.players 1 = none ∧
    (handleClose stTwo 1).2 =
      ((handleClose stTwo 1).1.clients.filter Conn.isOpen).map
        (fun c => { target := c.id, msg := .playerLeft 1 }) ∧
    (∀ c ∈ (handleClose stTwo 1).1.clients, c.id ≠ 1) ∧
    getEntry (handleConnection (handleClose stTwo 1).1 "#123456").1.players 1 = none :=
  disconnect_deletes_then_broadcasts stTwo 1 "#123456" (by decide)

/-- C9: over any event sequence, the assigned player ids are exactly the
consecutive naturals from 1 (one per connect, so the counter starts at 1
and increments on each connect), hence strictly increasing and never
reused. -/
theorem assigned_ids_unique_increasing (es : List Event) :
    assignedIds es = idsFrom 1 (countConnects es) ∧
    List.Pairwise (· < ·) (assignedIds es) ∧
    (assignedIds es).Nodup := by
  have h := foldl_assignedIds es initialState []
  have h1 : assignedIds es = idsFrom 1 (countConnects es) := by
    unfold assignedIds runTrace
    rw [h]
    rfl
  refine ⟨h1, ?_, ?_⟩
  · rw [h1]
    exact idsFrom_pairwise _ 1
  · rw [h1]
    exact (idsFrom_pairwise _ 1).imp (fun hlt => Nat.ne_of_lt hlt)
